import Mathlib

/-!
Verification of the scraping-orchestration core of the googlemaps-scraper
repository (`app.py`): the URL normalizer, the cross-source deduplication
algorithm, the six-stage pipeline with its progress accounting, the job
lifecycle, and the HTTP-facing job operations.

Strings are modelled as lists of Unicode code points (`List Nat`), so every
definition is executable and every concrete run can be checked by `decide`.
-/

namespace GmScraper

/-! ## String model: Python string primitives used by `app.py` -/

/-- Code point of a character after Python `str.lower`, for the ASCII range
(the URLs and keys handled by the scraper are ASCII). -/
def pyLowerChar (c : Nat) : Nat :=
  if 65 ≤ c ∧ c ≤ 90 then c + 32 else c

/-- Python `str.lower` applied pointwise. -/
def pyLower (s : List Nat) : List Nat :=
  s.map pyLowerChar

/-- One pass of Python `str.replace(pat, '')`: scan left to right, and at each
position either drop a match of `pat` and continue after it, or keep the
character.  `fuel` bounds the recursion; since every step consumes at least one
character (for nonempty `pat`), `fuel = s.length` is always enough. -/
def replaceAllEmpty (pat : List Nat) : Nat → List Nat → List Nat
  | _, [] => []
  | 0, s => s
  | fuel + 1, c :: rest =>
    if pat.isPrefixOf (c :: rest) then
      replaceAllEmpty pat fuel (rest.drop (pat.length - 1))
    else
      c :: replaceAllEmpty pat fuel rest

/-- Python `s.replace(pat, '')` for a nonempty pattern `pat`. -/
def pyReplaceDel (pat s : List Nat) : List Nat :=
  replaceAllEmpty pat s.length s

/-- Whether `pat` occurs as a contiguous subsequence of `s` (decidable,
executable occurrence check used to state the corrected idempotence claim). -/
def containsSeq (pat : List Nat) : List Nat → Bool
  | [] => pat.isEmpty
  | c :: rest => pat.isPrefixOf (c :: rest) || containsSeq pat rest

/-- Code points of `"https://"`. -/
def httpsPat : List Nat := [104, 116, 116, 112, 115, 58, 47, 47]

/-- Code points of `"http://"`. -/
def httpPat : List Nat := [104, 116, 116, 112, 58, 47, 47]

/-- Code points of `"www."`. -/
def wwwPat : List Nat := [119, 119, 119, 46]

/-! ## `ScrapingOrchestrator.normalize_url` (app.py lines 34-55) -/

/-- `normalize_url` from `app.py`: falsy (empty) input yields `""`; otherwise
lower-case, `replace('https://','')`, `replace('http://','')`, strip a leading
`www.`, strip one trailing `/`, and if `'?'` occurs keep only the part before
it.  `47 = '/'`, `63 = '?'`. -/
def normalize_url (url : List Nat) : List Nat :=
  if url = [] then []
  else
    let u1 := pyReplaceDel httpPat (pyReplaceDel httpsPat (pyLower url))
    let u2 := if wwwPat.isPrefixOf u1 then u1.drop 4 else u1
    let u3 := if u2.getLast? = some 47 then u2.dropLast else u2
    if 63 ∈ u3 then u3.takeWhile (fun c => decide (c ≠ 63)) else u3

/-- The reference normalizer exactly as the specification words it: strip a
*leading* `https://` or `http://` (occurrences elsewhere are left intact),
then a leading `www.`, one trailing `/`, and the query suffix. -/
def specNormalize (url : List Nat) : List Nat :=
  if url = [] then []
  else
    let u1 := pyLower url
    let u2 :=
      if httpsPat.isPrefixOf u1 then u1.drop 8
      else if httpPat.isPrefixOf u1 then u1.drop 7
      else u1
    let u3 := if wwwPat.isPrefixOf u2 then u2.drop 4 else u2
    let u4 := if u3.getLast? = some 47 then u3.dropLast else u3
    if 63 ∈ u4 then u4.takeWhile (fun c => decide (c ≠ 63)) else u4

/-- Left-to-right removal of every occurrence of the pattern `p :: ps`,
written by recursion on the remaining string (the natural reading of the
amended claim's "all occurrences are removed in one left-to-right scan"). -/
def removeOccs (p : Nat) (ps : List Nat) (s : List Nat) : List Nat :=
  match s with
  | [] => []
  | c :: rest =>
    if (p :: ps).isPrefixOf (c :: rest) then removeOccs p ps (rest.drop ps.length)
    else c :: removeOccs p ps rest
termination_by s.length
decreasing_by
  · simp only [List.length_cons, List.length_drop]; omega
  · simp only [List.length_cons]; omega

/-- The normalizer as the amended claim words it: like `specNormalize`, except
that *every* occurrence of `https://` and then of `http://` is removed, not
only a leading one. -/
def amendedNormalize (url : List Nat) : List Nat :=
  if url = [] then []
  else
    let u1 := removeOccs 104 [116, 116, 112, 58, 47, 47]
      (removeOccs 104 [116, 116, 112, 115, 58, 47, 47] (pyLower url))
    let u2 := if wwwPat.isPrefixOf u1 then u1.drop 4 else u1
    let u3 := if u2.getLast? = some 47 then u2.dropLast else u2
    if 63 ∈ u3 then u3.takeWhile (fun c => decide (c ≠ 63)) else u3

/-! ### Lemmas about the string primitives -/

theorem replaceAllEmpty_nil (pat : List Nat) (fuel : Nat) :
    replaceAllEmpty pat fuel [] = [] := by
  cases fuel <;> rfl

theorem replaceAllEmpty_eq_removeOccs (p : Nat) (ps : List Nat) :
    ∀ (fuel : Nat) (s : List Nat), s.length ≤ fuel →
      replaceAllEmpty (p :: ps) fuel s = removeOccs p ps s := by
  intro fuel
  induction fuel with
  | zero =>
    intro s hs
    have hnil : s = [] := by
      cases s with
      | nil => rfl
      | cons c rest => simp at hs
    subst hnil
    rw [removeOccs, replaceAllEmpty_nil]
  | succ f ih =>
    intro s hs
    cases s with
    | nil => rw [removeOccs, replaceAllEmpty_nil]
    | cons c rest =>
      rw [removeOccs]
      simp only [replaceAllEmpty]
      by_cases hp : (p :: ps).isPrefixOf (c :: rest)
      · rw [if_pos hp, if_pos hp]
        have hlen : (rest.drop ps.length).length ≤ f := by
          simp only [List.length_drop]
          simp only [List.length_cons] at hs
          omega
        have : (p :: ps).length - 1 = ps.length := by simp
        rw [this]
        exact ih _ hlen
      · rw [if_neg hp, if_neg hp]
        have hlen : rest.length ≤ f := by
          simp only [List.length_cons] at hs; omega
        rw [ih _ hlen]

/-- If the pattern does not occur in `s`, a replace pass leaves `s` intact. -/
theorem replaceAllEmpty_of_not_contains (pat : List Nat) :
    ∀ (fuel : Nat) (s : List Nat), containsSeq pat s = false →
      replaceAllEmpty pat fuel s = s := by
  intro fuel
  induction fuel with
  | zero =>
    intro s _
    cases s <;> rfl
  | succ f ih =>
    intro s hc
    cases s with
    | nil => rfl
    | cons c rest =>
      simp only [containsSeq, Bool.or_eq_false_iff] at hc
      simp only [replaceAllEmpty, if_neg (by simp [hc.1] : ¬ pat.isPrefixOf (c :: rest))]
      rw [ih rest hc.2]

/-- Characters produced by a replace pass come from the input. -/
theorem mem_replaceAllEmpty (pat : List Nat) :
    ∀ (fuel : Nat) (s : List Nat) (c : Nat),
      c ∈ replaceAllEmpty pat fuel s → c ∈ s := by
  intro fuel
  induction fuel with
  | zero =>
    intro s c h
    cases s with
    | nil => rwa [replaceAllEmpty_nil] at h
    | cons a rest => exact h
  | succ f ih =>
    intro s c h
    cases s with
    | nil => rwa [replaceAllEmpty_nil] at h
    | cons a rest =>
      simp only [replaceAllEmpty] at h
      by_cases hp : pat.isPrefixOf (a :: rest)
      · rw [if_pos hp] at h
        have := ih _ _ h
        exact List.mem_cons_of_mem a (List.drop_subset _ _ this)
      · rw [if_neg hp] at h
        rcases List.mem_cons.mp h with h | h
        · exact h ▸ List.mem_cons_self a rest
        · exact List.mem_cons_of_mem a (ih _ _ h)

theorem mem_pyReplaceDel {pat s : List Nat} {c : Nat} (h : c ∈ pyReplaceDel pat s) :
    c ∈ s :=
  mem_replaceAllEmpty pat s.length s c h

theorem pyReplaceDel_of_not_contains {pat s : List Nat}
    (h : containsSeq pat s = false) : pyReplaceDel pat s = s :=
  replaceAllEmpty_of_not_contains pat s.length s h

/-- Characters of a lower-cased string are fixed by lower-casing. -/
theorem pyLowerChar_of_mem_pyLower {s : List Nat} {c : Nat} (h : c ∈ pyLower s) :
    pyLowerChar c = c := by
  simp only [pyLower, List.mem_map] at h
  obtain ⟨d, _, rfl⟩ := h
  simp only [pyLowerChar]
  by_cases hd : 65 ≤ d ∧ d ≤ 90
  · rw [if_pos hd, if_neg (by omega)]
  · rw [if_neg hd, if_neg hd]

/-- Every character of a normalized URL is fixed by lower-casing. -/
theorem mem_normalize_lower {u : List Nat} {c : Nat} (h : c ∈ normalize_url u) :
    pyLowerChar c = c := by
  simp only [normalize_url] at h
  by_cases hu : u = []
  · rw [if_pos hu] at h; simp at h
  · rw [if_neg hu] at h
    have step4 : ∀ v : List Nat,
        c ∈ (if 63 ∈ v then v.takeWhile (fun c => decide (c ≠ 63)) else v) → c ∈ v := by
      intro v hv
      by_cases h63 : 63 ∈ v
      · rw [if_pos h63] at hv
        exact (List.takeWhile_prefix _).subset hv
      · rwa [if_neg h63] at hv
    have step3 : ∀ v : List Nat,
        c ∈ (if v.getLast? = some 47 then v.dropLast else v) → c ∈ v := by
      intro v hv
      by_cases h47 : v.getLast? = some 47
      · rw [if_pos h47] at hv
        exact (List.dropLast_prefix v).subset hv
      · rwa [if_neg h47] at hv
    have step2 : ∀ v : List Nat,
        c ∈ (if wwwPat.isPrefixOf v then v.drop 4 else v) → c ∈ v := by
      intro v hv
      by_cases hw : wwwPat.isPrefixOf v
      · rw [if_pos hw] at hv
        exact List.drop_subset _ _ hv
      · rwa [if_neg hw] at hv
    have h1 := step2 _ (step3 _ (step4 _ h))
    exact pyLowerChar_of_mem_pyLower (mem_pyReplaceDel (mem_pyReplaceDel h1))

/-- The query-trimming step never leaves a `'?'` (code point 63) behind. -/
theorem not_mem_63_querySplit (v : List Nat) :
    63 ∉ (if 63 ∈ v then v.takeWhile (fun c => decide (c ≠ 63)) else v) := by
  by_cases h : 63 ∈ v
  · rw [if_pos h]
    intro hm
    have := List.mem_takeWhile_imp hm
    simp at this
  · rw [if_neg h]
    exact h

/-- A normalized URL contains no `'?'` (code point 63). -/
theorem not_mem_63_normalize (u : List Nat) : 63 ∉ normalize_url u := by
  simp only [normalize_url]
  by_cases hu : u = []
  · rw [if_pos hu]; simp
  · rw [if_neg hu]
    exact not_mem_63_querySplit _

/-- `pyLower` fixes a normalized URL. -/
theorem pyLower_normalize (u : List Nat) :
    pyLower (normalize_url u) = normalize_url u := by
  have : ∀ c ∈ normalize_url u, pyLowerChar c = c := fun c hc => mem_normalize_lower hc
  simp only [pyLower]
  calc (normalize_url u).map pyLowerChar
      = (normalize_url u).map id := List.map_congr_left this
    _ = normalize_url u := List.map_id _

/-- A string satisfying all the normal-form side conditions is a fixed point
of `normalize_url`. -/
theorem normalize_url_fixed (r : List Nat)
    (hl : pyLower r = r)
    (h1 : containsSeq httpsPat r = false)
    (h2 : containsSeq httpPat r = false)
    (h3 : wwwPat.isPrefixOf r = false)
    (h4 : r.getLast? ≠ some 47)
    (h5 : 63 ∉ r) :
    normalize_url r = r := by
  by_cases hnil : r = []
  · rw [hnil]; rfl
  · have hw : (if wwwPat.isPrefixOf r then r.drop 4 else r) = r := by simp [h3]
    have hg : (if r.getLast? = some 47 then r.dropLast else r) = r := if_neg h4
    have hq : (if (63 : Nat) ∈ r then r.takeWhile (fun c => decide (c ≠ 63)) else r) = r :=
      if_neg h5
    simp only [normalize_url]
    rw [if_neg hnil, hl, pyReplaceDel_of_not_contains h1,
      pyReplaceDel_of_not_contains h2, hw, hg, hq]

/-! ## Claim theorems about the URL normalizer -/

/-- C4 counterexample: the claim says occurrences of `https://` that are not a
leading prefix are left intact, but `normalize_url` (a Python
`str.replace`) removes the embedded `https://` of `"ahttps://b"` as well, so
it disagrees with the specification's reference definition there. -/
theorem c4_counterexample :
    normalize_url ([97] ++ httpsPat ++ [98]) ≠ specNormalize ([97] ++ httpsPat ++ [98]) := by
  decide

/-- C4 (amended): `normalize_url` equals the reference definition in which
*every* occurrence of `https://`, and then of `http://`, is removed in one
left-to-right scan — not only a leading prefix; the remaining steps
(lower-casing, leading `www.`, one trailing `/`, query trimming) are as the
specification states. -/
theorem c4_normalize_amended (u : List Nat) : normalize_url u = amendedNormalize u := by
  have h1 : pyReplaceDel httpsPat (pyLower u)
      = removeOccs 104 [116, 116, 112, 115, 58, 47, 47] (pyLower u) :=
    replaceAllEmpty_eq_removeOccs 104 _ _ _ le_rfl
  have h2 : pyReplaceDel httpPat (removeOccs 104 [116, 116, 112, 115, 58, 47, 47] (pyLower u))
      = removeOccs 104 [116, 116, 112, 58, 47, 47]
          (removeOccs 104 [116, 116, 112, 115, 58, 47, 47] (pyLower u)) :=
    replaceAllEmpty_eq_removeOccs 104 _ _ _ le_rfl
  simp only [normalize_url, amendedNormalize, h1, h2]

/-- C5 counterexample: `normalize_url` strips only one trailing slash per
pass, so on `"a//"` it returns `"a/"`, and normalizing again returns `"a"` —
idempotence fails. -/
theorem c5_counterexample :
    normalize_url (normalize_url [97, 47, 47]) ≠ normalize_url [97, 47, 47] := by
  decide

/-- C5 (amended): `normalize_url` is idempotent on every input whose
normalized form contains no occurrence of `https://` or `http://`, does not
start with `www.`, and does not end with `/` (re-normalization can only
differ by re-running those three removals; lower-casing and query trimming
are always stable). -/
theorem c5_idempotent_amended (u : List Nat)
    (h1 : containsSeq httpsPat (normalize_url u) = false)
    (h2 : containsSeq httpPat (normalize_url u) = false)
    (h3 : wwwPat.isPrefixOf (normalize_url u) = false)
    (h4 : (normalize_url u).getLast? ≠ some 47) :
    normalize_url (normalize_url u) = normalize_url u :=
  normalize_url_fixed _ (pyLower_normalize u) h1 h2 h3 h4 (not_mem_63_normalize u)

/-- C5 witness: the conditional idempotence theorem applies to the concrete
input `"https://a"`, whose normalized form is `"a"`. -/
theorem c5_idempotent_witness :
    containsSeq httpsPat (normalize_url (httpsPat ++ [97])) = false ∧
    containsSeq httpPat (normalize_url (httpsPat ++ [97])) = false ∧
    wwwPat.isPrefixOf (normalize_url (httpsPat ++ [97])) = false ∧
    (normalize_url (httpsPat ++ [97])).getLast? ≠ some 47 ∧
    normalize_url (normalize_url (httpsPat ++ [97])) = normalize_url (httpsPat ++ [97]) :=
  ⟨by decide, by decide, by decide, by decide,
    c5_idempotent_amended _ (by decide) (by decide) (by decide) (by decide)⟩

/-! ## Data model: reviews, dedup state, job records (app.py lines 26-32,
114-117, 401-424) -/

/-- One review/finding dictionary, restricted to the keys the orchestrator
reads or writes (`url_user`, `review_url`, `id_review`, plus the tag fields
the stages assign).  Strings are lists of code points. -/
structure Review where
  url_user : List Nat := []
  review_url : List Nat := []
  id_review : List Nat := []
  source : List Nat := []
  business_name : List Nat := []
  business_url : List Nat := []
deriving DecidableEq

/-- The per-job dedup state of `scrape_all_sources`: `all_urls`,
`all_review_ids` (sets, modelled by membership in a list) and the job-wide
`all_reviews` accumulator (lines 114-117). -/
structure Dedup where
  urls : List (List Nat) := []
  ids : List (List Nat) := []
  reviews : List Review := []
deriving DecidableEq

/-- The URL used for deduplication: `review.get('url_user','') or
review.get('review_url','')`, normalized (lines 129-130). -/
def dedupKey (r : Review) : List Nat :=
  normalize_url (if r.url_user ≠ [] then r.url_user else r.review_url)

/-- One iteration of the dedup check (lines 131-136): admit iff the
normalized URL is not in `all_urls` AND the review id is not in
`all_review_ids`; on admission add both (the id even when empty) and append
the review to `all_reviews`. -/
def dedupStep (d : Dedup) (r : Review) : Dedup × Bool :=
  if dedupKey r ∉ d.urls ∧ r.id_review ∉ d.ids then
    (⟨dedupKey r :: d.urls, r.id_review :: d.ids, d.reviews ++ [r]⟩, true)
  else
    (d, false)

/-- The per-stage loop over an adapter's reviews (lines 123-137): tag each
review, run the dedup check, and append admitted reviews to the stage's
`results` list `acc`. -/
def mergeReviews (tag : Review → Review) (d : Dedup) (acc : List Review) :
    List Review → Dedup × List Review
  | [] => (d, acc)
  | r0 :: rest =>
    let r := tag r0
    let st := dedupStep d r
    if st.2 then mergeReviews tag st.1 (acc ++ [r]) rest
    else mergeReviews tag d acc rest

/-- The dedup loop as claim C3 words it: a finding is a duplicate iff its key
is already admitted OR its external id is *non-empty* and already admitted;
on admission the key is always inserted and the id only when non-empty. -/
def specMerge (tag : Review → Review) (d : Dedup) (acc : List Review) :
    List Review → Dedup × List Review
  | [] => (d, acc)
  | r0 :: rest =>
    let r := tag r0
    if dedupKey r ∈ d.urls ∨ (r.id_review ≠ [] ∧ r.id_review ∈ d.ids) then
      specMerge tag d acc rest
    else
      specMerge tag
        ⟨dedupKey r :: d.urls,
          if r.id_review ≠ [] then r.id_review :: d.ids else d.ids,
          d.reviews ++ [r]⟩
        (acc ++ [r]) rest

/-- The dedup loop as the amended claim words it: a finding is a duplicate
iff its key is already admitted OR its external id — *even when empty* — is
already admitted; on admission both the key and the id are inserted
unconditionally. -/
def amendedMerge (tag : Review → Review) (d : Dedup) (acc : List Review) :
    List Review → Dedup × List Review
  | [] => (d, acc)
  | r0 :: rest =>
    let r := tag r0
    if dedupKey r ∈ d.urls ∨ r.id_review ∈ d.ids then
      amendedMerge tag d acc rest
    else
      amendedMerge tag ⟨dedupKey r :: d.urls, r.id_review :: d.ids, d.reviews ++ [r]⟩
        (acc ++ [r]) rest

/-! ### Lemmas about the dedup loop -/

/-- The final dedup state does not depend on the stage accumulator. -/
theorem mergeReviews_fst_acc (tag : Review → Review) :
    ∀ (rs : List Review) (d : Dedup) (acc acc' : List Review),
      (mergeReviews tag d acc rs).1 = (mergeReviews tag d acc' rs).1 := by
  intro rs
  induction rs with
  | nil => intro d acc acc'; rfl
  | cons r0 rest ih =>
    intro d acc acc'
    simp only [mergeReviews]
    by_cases hs : (dedupStep d (tag r0)).2
    · rw [if_pos hs, if_pos hs]; exact ih _ _ _
    · rw [if_neg hs, if_neg hs]; exact ih _ _ _

/-- Processing an appended list processes the pieces in sequence (dedup
state component). -/
theorem mergeReviews_fst_append (tag : Review → Review) (ys : List Review) :
    ∀ (xs : List Review) (d : Dedup) (acc : List Review),
      (mergeReviews tag d acc (xs ++ ys)).1
        = (mergeReviews tag (mergeReviews tag d acc xs).1 [] ys).1 := by
  intro xs
  induction xs with
  | nil =>
    intro d acc
    simp only [List.nil_append, mergeReviews]
    exact mergeReviews_fst_acc tag ys d acc []
  | cons r0 rest ih =>
    intro d acc
    simp only [List.cons_append, mergeReviews]
    by_cases hs : (dedupStep d (tag r0)).2
    · rw [if_pos hs, if_pos hs]; exact ih _ _
    · rw [if_neg hs, if_neg hs]; exact ih _ _

/-- Admitted review ids are never removed by later processing. -/
theorem mergeReviews_ids_mono (tag : Review → Review) :
    ∀ (rs : List Review) (d : Dedup) (acc : List Review) (a : List Nat),
      a ∈ d.ids → a ∈ (mergeReviews tag d acc rs).1.ids := by
  intro rs
  induction rs with
  | nil => intro d acc a ha; exact ha
  | cons r0 rest ih =>
    intro d acc a ha
    simp only [mergeReviews]
    by_cases hs : (dedupStep d (tag r0)).2
    · rw [if_pos hs]
      apply ih
      simp only [dedupStep] at *
      by_cases hc : dedupKey (tag r0) ∉ d.urls ∧ (tag r0).id_review ∉ d.ids
      · rw [if_pos hc]
        exact List.mem_cons_of_mem _ ha
      · rw [if_neg hc]
        exact ha
    · rw [if_neg hs]
      exact ih _ _ _ ha

/-- A positive dedup decision forces the insertion form of the new state. -/
theorem dedupStep_true (d : Dedup) (r : Review)
    (h : (dedupStep d r).2 = true) :
    (dedupStep d r).1 = ⟨dedupKey r :: d.urls, r.id_review :: d.ids, d.reviews ++ [r]⟩ := by
  by_cases hc : dedupKey r ∉ d.urls ∧ r.id_review ∉ d.ids
  · simp only [dedupStep, if_pos hc]
  · exfalso
    simp only [dedupStep, if_neg hc] at h
    exact Bool.false_ne_true h

/-- A review whose id is already admitted is always rejected. -/
theorem dedupStep_false_of_id_mem (d : Dedup) (r : Review)
    (h : r.id_review ∈ d.ids) : (dedupStep d r).2 = false := by
  have : ¬ (dedupKey r ∉ d.urls ∧ r.id_review ∉ d.ids) := fun hc => hc.2 h
  simp only [dedupStep, if_neg this]

/-! ## Claim theorems about deduplication (C3, C10) -/

/-- C3 counterexample: two findings with distinct fresh URLs and empty ids.
The claim's rule admits both (the empty id is neither checked nor
inserted); the code admits the first, inserts its empty id, and then rejects
the second because `'' in all_review_ids`. -/
theorem c3_counterexample :
    (mergeReviews id {} [] [⟨[97], [], [], [], [], []⟩, ⟨[98], [], [], [], [], []⟩]).2
      ≠ (specMerge id {} [] [⟨[97], [], [], [], [], []⟩, ⟨[98], [], [], [], [], []⟩]).2 := by
  decide

/-- C3 (amended): for every sequence of findings processed within one job,
a finding is rejected as a duplicate iff its normalized URL key is already
in the admitted-URL set OR its external identifier — including the empty
identifier — is already in the admitted-id set; on admission both the key
and the identifier are inserted unconditionally. -/
theorem c3_dedup_amended (tag : Review → Review) (d : Dedup) (acc rs : List Review) :
    mergeReviews tag d acc rs = amendedMerge tag d acc rs := by
  induction rs generalizing d acc with
  | nil => rfl
  | cons r0 rest ih =>
    simp only [mergeReviews, amendedMerge]
    by_cases hc : dedupKey (tag r0) ∉ d.urls ∧ (tag r0).id_review ∉ d.ids
    · have hs : (dedupStep d (tag r0)).2 = true := by
        simp only [dedupStep, if_pos hc]
      have hnot : ¬ (dedupKey (tag r0) ∈ d.urls ∨ (tag r0).id_review ∈ d.ids) := by
        intro h
        rcases h with h | h
        · exact hc.1 h
        · exact hc.2 h
      rw [if_pos hs, if_neg hnot, dedupStep_true d (tag r0) hs]
      exact ih _ _
    · have hs : (dedupStep d (tag r0)).2 = false := by
        simp only [dedupStep, if_neg hc]
      have hor : dedupKey (tag r0) ∈ d.urls ∨ (tag r0).id_review ∈ d.ids := by
        by_contra hno
        push_neg at hno
        exact hc ⟨hno.1, hno.2⟩
      rw [if_neg (by simp [hs]), if_pos hor]
      exact ih _ _

/-- C10: once a finding with an empty external id has been admitted, every
later finding with an empty id is rejected as a duplicate (regardless of its
URL), because the empty id was inserted into the admitted-id set. -/
theorem c10_empty_id_blocks (tag : Review → Review)
    (htag : ∀ x, (tag x).id_review = x.id_review)
    (d : Dedup) (acc acc' l1 l2 : List Review) (r r' : Review)
    (hr : r.id_review = []) (hr' : r'.id_review = [])
    (hadm : (dedupStep (mergeReviews tag d acc l1).1 (tag r)).2 = true) :
    (dedupStep (mergeReviews tag d acc' (l1 ++ r :: l2)).1 (tag r')).2 = false := by
  rw [mergeReviews_fst_append]
  rw [mergeReviews_fst_acc tag l1 d acc' acc]
  set D := (mergeReviews tag d acc l1).1 with hD
  have hstep : mergeReviews tag D [] (r :: l2)
      = mergeReviews tag (dedupStep D (tag r)).1 ([] ++ [tag r]) l2 := by
    simp only [mergeReviews]
    rw [if_pos hadm]
  rw [hstep]
  apply dedupStep_false_of_id_mem
  rw [htag r', hr']
  apply mergeReviews_ids_mono
  rw [dedupStep_true D (tag r) hadm]
  rw [htag r, hr]
  exact List.mem_cons_self _ _

/-- C10 witness: with an empty-id finding admitted first, a second empty-id
finding with a fresh URL is rejected. -/
theorem c10_witness :
    (dedupStep (mergeReviews id {} [] ([] ++ ⟨[97], [], [], [], [], []⟩ :: [])).1
        (id ⟨[98], [], [], [], [], []⟩)).2 = false :=
  c10_empty_id_blocks id (fun _ => rfl) {} [] [] [] []
    ⟨[97], [], [], [], [], []⟩ ⟨[98], [], [], [], [], []⟩ rfl rfl (by decide)

/-! ## Job records and the six-stage pipeline (app.py lines 73-344, 401-444) -/

/-- Job lifecycle status. -/
inductive Status where
  | running
  | completed
  | failed
deriving DecidableEq

/-- A job record (the dictionary created at lines 401-424), restricted to
the fields the orchestrator reads or writes.  `history` is a ghost field
recording, in order, every observable write of the `progress`/`status`
pair — one entry at creation and one per assignment. -/
structure Job where
  status : Status := .running
  progress : Nat := 0
  total_reviews : Nat := 0
  google : List Review := []
  trustpilot : List Review := []
  reddit : List Review := []
  youtube : List Review := []
  tiktok : List Review := []
  internet : List Review := []
  stat_google : Nat := 0
  stat_trustpilot : Nat := 0
  stat_reddit : Nat := 0
  stat_youtube : Nat := 0
  stat_tiktok : Nat := 0
  stat_internet : Nat := 0
  stat_total_unique : Nat := 0
  history : List (Nat × Status) := [(0, .running)]
deriving DecidableEq

/-- The job record as initialized by `/scrape` (lines 401-424): status
`running`, progress 0, empty results, zeroed statistics. -/
def initJob : Job := {}

/-- The dedup state plus the job record threaded through the pipeline. -/
structure PipeState where
  dedup : Dedup
  job : Job
deriving DecidableEq

/-- An assignment to `job['progress']` (recorded in the ghost history
together with the status it is observed with). -/
def writeProgress (j : Job) (p : Nat) : Job :=
  { j with progress := p, history := j.history ++ [(p, j.status)] }

/-- `PipeState` version of `writeProgress`. -/
def withProgress (s : PipeState) (p : Nat) : PipeState :=
  ⟨s.dedup, writeProgress s.job p⟩

/-- The Google stage's merge loop (lines 122-137) *before* the statistics
write of line 139: tags each review with source/business info, dedups, and
appends admitted reviews to `results['google']`.  The returned job is the
observable state between lines 137 and 139. -/
def stageGoogleLoop (bn burl : List Nat) (rs : List Review) (s : PipeState) : PipeState :=
  let tagG : Review → Review :=
    fun r => { r with source := [71, 111, 111, 103, 108, 101], business_name := bn, business_url := burl }
  let p := mergeReviews tagG s.dedup s.job.google rs
  ⟨p.1, { s.job with google := p.2 }⟩

/-- Step 1/6, Google Reviews (lines 119-145): skipped without a
`google_maps_url`; an adapter exception is caught and contributes nothing;
otherwise merge and then set `statistics['google']` to the length of
`results['google']`. -/
def stageGoogle (bn burl maps : List Nat) (res : Except Unit (List Review))
    (s : PipeState) : PipeState :=
  if maps ≠ [] then
    match res with
    | .ok rs =>
      let m := stageGoogleLoop bn burl rs s
      ⟨m.dedup, { m.job with stat_google := m.job.google.length }⟩
    | .error _ => s
  else s

/-- Step 2/6, Trustpilot (lines 159-185): skipped without a
`trustpilot_url`; the Trustpilot scraper already sets source/business info,
the stage only overwrites `business_url`. -/
def stageTrustpilot (burl trust : List Nat) (res : Except Unit (List Review))
    (s : PipeState) : PipeState :=
  if trust ≠ [] then
    match res with
    | .ok rs =>
      let p := mergeReviews (fun r => { r with business_url := burl })
        s.dedup s.job.trustpilot rs
      ⟨p.1, { s.job with trustpilot := p.2, stat_trustpilot := p.2.length }⟩
    | .error _ => s
  else s

/-- Step 3/6, Reddit (lines 192-218): skipped without a `business_url`. -/
def stageReddit (burl : List Nat) (res : Except Unit (List Review))
    (s : PipeState) : PipeState :=
  if burl ≠ [] then
    match res with
    | .ok rs =>
      let p := mergeReviews (fun r => { r with business_url := burl })
        s.dedup s.job.reddit rs
      ⟨p.1, { s.job with reddit := p.2, stat_reddit := p.2.length }⟩
    | .error _ => s
  else s

/-- Step 4/6, YouTube (lines 225-251): skipped without a `business_url`. -/
def stageYoutube (burl : List Nat) (res : Except Unit (List Review))
    (s : PipeState) : PipeState :=
  if burl ≠ [] then
    match res with
    | .ok rs =>
      let p := mergeReviews (fun r => { r with business_url := burl })
        s.dedup s.job.youtube rs
      ⟨p.1, { s.job with youtube := p.2, stat_youtube := p.2.length }⟩
    | .error _ => s
  else s

/-- Step 5/6, TikTok (lines 258-284): skipped without a `business_url`. -/
def stageTiktok (burl : List Nat) (res : Except Unit (List Review))
    (s : PipeState) : PipeState :=
  if burl ≠ [] then
    match res with
    | .ok rs =>
      let p := mergeReviews (fun r => { r with business_url := burl })
        s.dedup s.job.tiktok rs
      ⟨p.1, { s.job with tiktok := p.2, stat_tiktok := p.2.length }⟩
    | .error _ => s
  else s

/-- Step 6/6, Internet Search (lines 291-317): skipped without a
`business_url`. -/
def stageInternet (burl : List Nat) (res : Except Unit (List Review))
    (s : PipeState) : PipeState :=
  if burl ≠ [] then
    match res with
    | .ok rs =>
      let p := mergeReviews (fun r => { r with business_url := burl })
        s.dedup s.job.internet rs
      ⟨p.1, { s.job with internet := p.2, stat_internet := p.2.length }⟩
    | .error _ => s
  else s

/-- `total_steps` (lines 148-155): 6 minus one per missing maps/Trustpilot
locator and minus four when `business_url` is missing.  With no locators at
all this is 0, and line 156 divides by it. -/
def totalSteps (maps trust burl : List Nat) : Nat :=
  6 - (if maps = [] then 1 else 0) - (if trust = [] then 1 else 0)
    - (if burl = [] then 4 else 0)

/-- Stages 2-6 with their progress writes, and the finalization block
(lines 158-327) after the first progress write has succeeded:
`int((completed_steps / total_steps) * 100)` is `completed_steps * 100 / ts`
(for the reachable values 1 ≤ completed_steps ≤ 5, 1 ≤ ts ≤ 6, float
truncation agrees with exact floor division). -/
def runStages (burl trust : List Nat) (t r y k i : Except Unit (List Review))
    (ts : Nat) (s1 : PipeState) : Job :=
  let s2 := stageTrustpilot burl trust t (withProgress s1 (1 * 100 / ts))
  let s3 := stageReddit burl r (withProgress s2 (2 * 100 / ts))
  let s4 := stageYoutube burl y (withProgress s3 (3 * 100 / ts))
  let s5 := stageTiktok burl k (withProgress s4 (4 * 100 / ts))
  let s6 := stageInternet burl i (withProgress s5 (5 * 100 / ts))
  finalize s6
where
  /-- Lines 319-327: set progress to 100, record `total_unique`, and mark
  the job completed. -/
  finalize (s : PipeState) : Job :=
    let j6 := writeProgress s.job 100
    let total := s.dedup.reviews.length
    let j7 := { j6 with stat_total_unique := total, total_reviews := total }
    { j7 with status := .completed, history := j7.history ++ [(j7.progress, .completed)] }

/-- `scrape_all_sources` (lines 73-344) acting on the running job record:
stage 1, then the first progress write — which raises `ZeroDivisionError`
when `total_steps` is 0 (`.error` carries the job state the exception
escapes with) — then stages 2-6 and finalization.  The lookup of the
running job by business name (lines 88-97) is modelled by the job being
passed in; the business-description block (lines 102-112) does not touch
the job record. -/
def scrape_all_sources (bn burl maps trust : List Nat)
    (g t r y k i : Except Unit (List Review)) (job : Job) : Except Job Job :=
  let s1 := stageGoogle bn burl maps g ⟨{}, job⟩
  let ts := totalSteps maps trust burl
  if ts = 0 then .error s1.job
  else .ok (runStages burl trust t r y k i ts s1)

/-- The `run_scraping` thread body (lines 427-439): on success the job
record already holds the result fields `update(result)` rewrites; an
exception escaping `scrape_all_sources` marks the job `failed` (an
observable status write, recorded in the history). -/
def run_scraping (bn burl maps trust : List Nat)
    (g t r y k i : Except Unit (List Review)) : Job :=
  match scrape_all_sources bn burl maps trust g t r y k i initJob with
  | .ok j => j
  | .error j => { j with status := .failed, history := j.history ++ [(j.progress, .failed)] }

/-! ## Claim theorems about progress accounting (C1, C2) -/

/-- Adjacent entries of an observation history are non-decreasing in the
progress component. -/
def nonDecB : List (Nat × Status) → Bool
  | a :: b :: t => decide (a.1 ≤ b.1) && nonDecB (b :: t)
  | _ => true

/-- Claim C1's invariant over a job's observation history: progress always
between 0 and 100, non-decreasing from one update to the next, and equal to
100 exactly at observations whose status is `completed`. -/
def progressOk (h : List (Nat × Status)) : Prop :=
  (∀ e ∈ h, e.1 ≤ 100) ∧ nonDecB h = true ∧ (∀ e ∈ h, e.1 = 100 ↔ e.2 = .completed)

instance (h : List (Nat × Status)) : Decidable (progressOk h) := by
  unfold progressOk
  infer_instance

/-- C1 (code bug): for a job whose only locator is the maps URL,
`total_steps` is 1 while `completed_steps` still counts all six stages, so
the observable progress sequence is 0, 100, 200, 300, 400, 500, 100, 100 —
it exceeds 100, decreases, and shows 100 while the status is still
`running`, violating every part of the claimed invariant. -/
theorem c1_progress_code_bug :
    (run_scraping [98] [] [109] [] (.ok []) (.ok []) (.ok []) (.ok []) (.ok [])
        (.ok [])).history
      = [(0, .running), (100, .running), (200, .running), (300, .running),
          (400, .running), (500, .running), (100, .running), (100, .completed)] ∧
    ¬ progressOk (run_scraping [98] [] [109] [] (.ok []) (.ok []) (.ok []) (.ok [])
        (.ok []) (.ok [])).history := by
  constructor
  · decide
  · decide

/-- C2 (code bug): with a business name but no business URL, no maps
locator, and no aggregator locator, `total_steps` is 0 and the first
progress update raises `ZeroDivisionError`; the driver marks the job
`failed` with progress 0 — not `completed` with progress 100 as the claim
requires (only `total_unique == 0` holds). -/
theorem c2_no_locators_code_bug :
    (run_scraping [97] [] [] [] (.ok []) (.ok []) (.ok []) (.ok []) (.ok [])
        (.ok [])).status = .failed ∧
    (run_scraping [97] [] [] [] (.ok []) (.ok []) (.ok []) (.ok []) (.ok [])
        (.ok [])).progress = 0 ∧
    (run_scraping [97] [] [] [] (.ok []) (.ok []) (.ok []) (.ok []) (.ok [])
        (.ok [])).stat_total_unique = 0 := by
  refine ⟨?_, ?_, ?_⟩ <;> decide

/-! ## Job creation: the `/scrape` handler (app.py lines 358-455) -/

/-- Observable outcome of `POST /scrape`: a 400 for a missing/empty
`business_name`, a 500 when the handler itself raises (caught at line 452),
or a started job. -/
inductive ScrapeResp where
  | badRequest
  | serverError
  | started (job : Job)
deriving DecidableEq

/-- `start_scraping` (lines 358-455).  Each argument is `none` when the key
is absent from the request JSON.  Lines 365-368 reject a missing or falsy
`business_name` with a 400.  Lines 371-373 read the optional URLs with
`data.get(..., '')`, but lines 393-395 re-read them with `data['...']`,
which raises `KeyError` for an absent key; the outer `except` then returns
a 500 and no job is ever created.  Only when all three keys are present
(possibly with empty values) is the job record created (lines 401-424). -/
def start_scraping (business_name business_url google_maps_url trustpilot_url :
    Option (List Nat)) : ScrapeResp :=
  match business_name with
  | none => .badRequest
  | some bn =>
    if bn = [] then .badRequest
    else
      match business_url, google_maps_url, trustpilot_url with
      | some _, some _, some _ => .started initJob
      | _, _, _ => .serverError

/-- C7 (code bug): a missing or empty `business_name` is rejected with no
job, as the claim says; but a request that omits any of the optional keys
does *not* create a job with skipped stages — the `data['business_url']`
re-read raises `KeyError` and the handler returns a 500 with no job.  Only
requests carrying all three keys (even with empty values) create a job. -/
theorem c7_creation_code_bug :
    start_scraping none (some [98]) (some [109]) (some [116]) = .badRequest ∧
    start_scraping (some []) (some [98]) (some [109]) (some [116]) = .badRequest ∧
    start_scraping (some [97]) none none none = .serverError ∧
    start_scraping (some [97]) none (some [109]) (some [116]) = .serverError ∧
    start_scraping (some [97]) (some []) (some []) (some []) = .started initJob := by
  refine ⟨?_, ?_, ?_, ?_, ?_⟩ <;> rfl

/-! ## Result retrieval: the `/results/<job_id>` handler (lines 476-501) -/

/-- Body of a `/results` response: the not-found error, the
not-completed-yet error (carrying the job's current status, which the
handler interpolates into its message), or the full results payload. -/
inductive ResultsPayload where
  | errNotFound
  | errNotCompleted (st : Status)
  | full (j : Job)
deriving DecidableEq

/-- `get_job_results` (lines 476-501): unknown id → HTTP 404 `Job not
found`; known id with status other than `completed` → HTTP 400 `Job is not
completed. Current status: ...`; otherwise HTTP 200 with the full record.
The job store is the `scraping_jobs` dict, modelled as an association
list. -/
def get_job_results (store : List (List Nat × Job)) (job_id : List Nat) :
    Nat × ResultsPayload :=
  match store.lookup job_id with
  | none => (404, .errNotFound)
  | some job =>
    if job.status ≠ .completed then (400, .errNotCompleted job.status)
    else (200, .full job)

/-- C9: an unknown job id yields the explicit 404 not-found signal; a known
but non-terminal job yields the distinct 400 signal that reports the
current status and carries no findings payload. -/
theorem c9_results_signals (store : List (List Nat × Job)) (job_id : List Nat) :
    (store.lookup job_id = none → get_job_results store job_id = (404, .errNotFound)) ∧
    (∀ job, store.lookup job_id = some job → job.status ≠ .completed →
      get_job_results store job_id = (400, .errNotCompleted job.status) ∧
      get_job_results store job_id ≠ (404, .errNotFound) ∧
      ∀ j, (get_job_results store job_id).2 ≠ .full j) := by
  constructor
  · intro h
    simp [get_job_results, h]
  · intro job hj hst
    refine ⟨?_, ?_, ?_⟩ <;> simp [get_job_results, hj, if_pos hst]

/-- C9 witness: a one-job store whose job is still running: `/results` on a
fresh id gives 404, on the running job gives the 400 not-completed signal. -/
theorem c9_results_witness :
    ([([49], initJob)].lookup ([50] : List Nat) = none →
      get_job_results [([49], initJob)] [50] = (404, .errNotFound)) ∧
    (get_job_results [([49], initJob)] [49] = (400, .errNotCompleted .running) ∧
      get_job_results [([49], initJob)] [49] ≠ (404, .errNotFound) ∧
      ∀ j, (get_job_results [([49], initJob)] [49]).2 ≠ .full j) :=
  ⟨(c9_results_signals [([49], initJob)] [50]).1,
    (c9_results_signals [([49], initJob)] [49]).2 initJob (by decide) (by decide)⟩

/-! ## The per-source count invariant (C8) -/

/-- Claim C8's invariant: for each of the six sources, the per-source count
statistic equals the length of the per-source findings list. -/
def jobInv (j : Job) : Prop :=
  j.stat_google = j.google.length ∧
  j.stat_trustpilot = j.trustpilot.length ∧
  j.stat_reddit = j.reddit.length ∧
  j.stat_youtube = j.youtube.length ∧
  j.stat_tiktok = j.tiktok.length ∧
  j.stat_internet = j.internet.length

instance (j : Job) : Decidable (jobInv j) := by
  unfold jobInv
  infer_instance

theorem jobInv_withProgress (s : PipeState) (p : Nat) (h : jobInv s.job) :
    jobInv (withProgress s p).job :=
  h

theorem jobInv_stageGoogle (bn burl maps : List Nat) (res : Except Unit (List Review))
    (s : PipeState) (h : jobInv s.job) : jobInv (stageGoogle bn burl maps res s).job := by
  obtain ⟨h1, h2, h3, h4, h5, h6⟩ := h
  unfold jobInv stageGoogle stageGoogleLoop
  by_cases hm : maps ≠ []
  · rw [if_pos hm]
    cases res with
    | ok rs => exact ⟨rfl, h2, h3, h4, h5, h6⟩
    | error e => exact ⟨h1, h2, h3, h4, h5, h6⟩
  · rw [if_neg hm]
    exact ⟨h1, h2, h3, h4, h5, h6⟩

theorem jobInv_stageTrustpilot (burl trust : List Nat) (res : Except Unit (List Review))
    (s : PipeState) (h : jobInv s.job) : jobInv (stageTrustpilot burl trust res s).job := by
  obtain ⟨h1, h2, h3, h4, h5, h6⟩ := h
  unfold jobInv stageTrustpilot
  by_cases hm : trust ≠ []
  · rw [if_pos hm]
    cases res with
    | ok rs => exact ⟨h1, rfl, h3, h4, h5, h6⟩
    | error e => exact ⟨h1, h2, h3, h4, h5, h6⟩
  · rw [if_neg hm]
    exact ⟨h1, h2, h3, h4, h5, h6⟩

theorem jobInv_stageReddit (burl : List Nat) (res : Except Unit (List Review))
    (s : PipeState) (h : jobInv s.job) : jobInv (stageReddit burl res s).job := by
  obtain ⟨h1, h2, h3, h4, h5, h6⟩ := h
  unfold jobInv stageReddit
  by_cases hm : burl ≠ []
  · rw [if_pos hm]
    cases res with
    | ok rs => exact ⟨h1, h2, rfl, h4, h5, h6⟩
    | error e => exact ⟨h1, h2, h3, h4, h5, h6⟩
  · rw [if_neg hm]
    exact ⟨h1, h2, h3, h4, h5, h6⟩

theorem jobInv_stageYoutube (burl : List Nat) (res : Except Unit (List Review))
    (s : PipeState) (h : jobInv s.job) : jobInv (stageYoutube burl res s).job := by
  obtain ⟨h1, h2, h3, h4, h5, h6⟩ := h
  unfold jobInv stageYoutube
  by_cases hm : burl ≠ []
  · rw [if_pos hm]
    cases res with
    | ok rs => exact ⟨h1, h2, h3, rfl, h5, h6⟩
    | error e => exact ⟨h1, h2, h3, h4, h5, h6⟩
  · rw [if_neg hm]
    exact ⟨h1, h2, h3, h4, h5, h6⟩

theorem jobInv_stageTiktok (burl : List Nat) (res : Except Unit (List Review))
    (s : PipeState) (h : jobInv s.job) : jobInv (stageTiktok burl res s).job := by
  obtain ⟨h1, h2, h3, h4, h5, h6⟩ := h
  unfold jobInv stageTiktok
  by_cases hm : burl ≠ []
  · rw [if_pos hm]
    cases res with
    | ok rs => exact ⟨h1, h2, h3, h4, rfl, h6⟩
    | error e => exact ⟨h1, h2, h3, h4, h5, h6⟩
  · rw [if_neg hm]
    exact ⟨h1, h2, h3, h4, h5, h6⟩

theorem jobInv_stageInternet (burl : List Nat) (res : Except Unit (List Review))
    (s : PipeState) (h : jobInv s.job) : jobInv (stageInternet burl res s).job := by
  obtain ⟨h1, h2, h3, h4, h5, h6⟩ := h
  unfold jobInv stageInternet
  by_cases hm : burl ≠ []
  · rw [if_pos hm]
    cases res with
    | ok rs => exact ⟨h1, h2, h3, h4, h5, rfl⟩
    | error e => exact ⟨h1, h2, h3, h4, h5, h6⟩
  · rw [if_neg hm]
    exact ⟨h1, h2, h3, h4, h5, h6⟩

theorem jobInv_finalize (s : PipeState) (h : jobInv s.job) :
    jobInv (runStages.finalize s) :=
  h

theorem jobInv_runStages (burl trust : List Nat) (t r y k i : Except Unit (List Review))
    (ts : Nat) (s1 : PipeState) (h : jobInv s1.job) :
    jobInv (runStages burl trust t r y k i ts s1) := by
  unfold runStages
  exact jobInv_finalize _
    (jobInv_stageInternet _ _ _
      (jobInv_withProgress _ _
        (jobInv_stageTiktok _ _ _
          (jobInv_withProgress _ _
            (jobInv_stageYoutube _ _ _
              (jobInv_withProgress _ _
                (jobInv_stageReddit _ _ _
                  (jobInv_withProgress _ _
                    (jobInv_stageTrustpilot _ _ _ _
                      (jobInv_withProgress _ _ h))))))))))

/-- C8 counterexample: the job record is observable between the merge loop's
appends (line 137) and the statistics write (line 139); after one admitted
Google review that state has `len(results['google']) == 1` while
`statistics['google']` is still 0, so the counts do not match the findings
at every observation point. -/
theorem c8_counterexample :
    ¬ jobInv (stageGoogleLoop [98] [] [⟨[97], [], [], [], [], []⟩] ⟨{}, initJob⟩).job ∧
    (stageGoogleLoop [98] [] [⟨[97], [], [], [], [], []⟩] ⟨{}, initJob⟩).job.google.length = 1 ∧
    (stageGoogleLoop [98] [] [⟨[97], [], [], [], [], []⟩] ⟨{}, initJob⟩).job.stat_google = 0 := by
  refine ⟨?_, ?_, ?_⟩ <;> decide

/-- C8 (amended): the per-source counts equal the lengths of the per-source
findings lists at job creation, after every stage (executed or skipped), and
in the job state the pipeline ends with (completed or failed); only within a
stage's merge loop, before that stage's statistics write, may the count lag
the list. -/
theorem c8_counts_amended (bn burl maps trust : List Nat)
    (g t r y k i : Except Unit (List Review)) (d : Dedup) (j : Job) (h : jobInv j) :
    jobInv initJob ∧
    jobInv (stageGoogle bn burl maps g ⟨d, j⟩).job ∧
    jobInv (stageTrustpilot burl trust t ⟨d, j⟩).job ∧
    jobInv (stageReddit burl r ⟨d, j⟩).job ∧
    jobInv (stageYoutube burl y ⟨d, j⟩).job ∧
    jobInv (stageTiktok burl k ⟨d, j⟩).job ∧
    jobInv (stageInternet burl i ⟨d, j⟩).job ∧
    (match scrape_all_sources bn burl maps trust g t r y k i j with
      | .ok jf => jobInv jf
      | .error jf => jobInv jf) := by
  refine ⟨by decide, jobInv_stageGoogle _ _ _ _ _ h, jobInv_stageTrustpilot _ _ _ _ h,
    jobInv_stageReddit _ _ _ h, jobInv_stageYoutube _ _ _ h, jobInv_stageTiktok _ _ _ h,
    jobInv_stageInternet _ _ _ h, ?_⟩
  unfold scrape_all_sources
  have hs1 : jobInv (stageGoogle bn burl maps g ⟨{}, j⟩).job :=
    jobInv_stageGoogle _ _ _ _ _ h
  by_cases hts : totalSteps maps trust burl = 0
  · rw [if_pos hts]
    exact hs1
  · rw [if_neg hts]
    exact jobInv_runStages _ _ _ _ _ _ _ _ _ hs1

/-- C8 witness: the amended invariant theorem applied to the freshly created
job and a no-locator pipeline run. -/
theorem c8_counts_witness :
    jobInv initJob ∧
    (match scrape_all_sources [97] [] [] [] (.ok []) (.ok []) (.ok []) (.ok [])
        (.ok []) (.ok []) initJob with
      | .ok jf => jobInv jf
      | .error jf => jobInv jf) :=
  ⟨(c8_counts_amended [97] [] [] [] (.ok []) (.ok []) (.ok []) (.ok []) (.ok [])
      (.ok []) {} initJob (by decide)).1,
    (c8_counts_amended [97] [] [] [] (.ok []) (.ok []) (.ok []) (.ok []) (.ok [])
      (.ok []) {} initJob (by decide)).2.2.2.2.2.2.2⟩

/-! ## Stage isolation lemmas (C6) -/

theorem stageGoogle_err (bn burl maps : List Nat) (s : PipeState) :
    stageGoogle bn burl maps (.error ()) s = s := by
  unfold stageGoogle
  by_cases hm : maps ≠ []
  · rw [if_pos hm]
  · rw [if_neg hm]

theorem stageGoogle_ok_nil (bn burl maps : List Nat) (s : PipeState)
    (h : s.job.stat_google = s.job.google.length) :
    stageGoogle bn burl maps (.ok []) s = s := by
  obtain ⟨d0, j0⟩ := s
  obtain ⟨st, pr, tr, gl, tp, rd, yt, tk, it, sg, stp, srd, syt, stk, sit, stu, hist⟩ := j0
  simp only [stageGoogle, stageGoogleLoop, mergeReviews] at h ⊢
  by_cases hm : maps ≠ []
  · rw [if_pos hm, h]
  · rw [if_neg hm]

theorem stageTrustpilot_err (burl trust : List Nat) (s : PipeState) :
    stageTrustpilot burl trust (.error ()) s = s := by
  unfold stageTrustpilot
  by_cases hm : trust ≠ []
  · rw [if_pos hm]
  · rw [if_neg hm]

theorem stageTrustpilot_ok_nil (burl trust : List Nat) (s : PipeState)
    (h : s.job.stat_trustpilot = s.job.trustpilot.length) :
    stageTrustpilot burl trust (.ok []) s = s := by
  obtain ⟨d0, j0⟩ := s
  obtain ⟨st, pr, tr, gl, tp, rd, yt, tk, it, sg, stp, srd, syt, stk, sit, stu, hist⟩ := j0
  simp only [stageTrustpilot, mergeReviews] at h ⊢
  by_cases hm : trust ≠ []
  · rw [if_pos hm, h]
  · rw [if_neg hm]

theorem stageGoogle_shape (bn burl maps : List Nat) (res : Except Unit (List Review))
    (s : PipeState) :
    ∃ lst n, stageGoogle bn burl maps res s
      = ⟨(stageGoogle bn burl maps res s).dedup,
          { s.job with google := lst, stat_google := n }⟩ := by
  unfold stageGoogle stageGoogleLoop
  by_cases hm : maps ≠ []
  · rw [if_pos hm]
    cases res with
    | ok rs => exact ⟨_, _, rfl⟩
    | error e => exact ⟨s.job.google, s.job.stat_google, rfl⟩
  · rw [if_neg hm]
    exact ⟨s.job.google, s.job.stat_google, rfl⟩

theorem stageReddit_err (burl : List Nat) (s : PipeState) :
    stageReddit burl (.error ()) s = s := by
  unfold stageReddit
  by_cases hm : burl ≠ []
  · rw [if_pos hm]
  · rw [if_neg hm]

theorem stageReddit_ok_nil (burl : List Nat) (s : PipeState)
    (h : s.job.stat_reddit = s.job.reddit.length) :
    stageReddit burl (.ok []) s = s := by
  obtain ⟨d0, j0⟩ := s
  obtain ⟨st, pr, tr, gl, tp, rd, yt, tk, it, sg, stp, srd, syt, stk, sit, stu, hist⟩ := j0
  simp only [stageReddit, mergeReviews] at h ⊢
  by_cases hm : burl ≠ []
  · rw [if_pos hm, h]
  · rw [if_neg hm]

theorem stageYoutube_err (burl : List Nat) (s : PipeState) :
    stageYoutube burl (.error ()) s = s := by
  unfold stageYoutube
  by_cases hm : burl ≠ []
  · rw [if_pos hm]
  · rw [if_neg hm]

theorem stageYoutube_ok_nil (burl : List Nat) (s : PipeState)
    (h : s.job.stat_youtube = s.job.youtube.length) :
    stageYoutube burl (.ok []) s = s := by
  obtain ⟨d0, j0⟩ := s
  obtain ⟨st, pr, tr, gl, tp, rd, yt, tk, it, sg, stp, srd, syt, stk, sit, stu, hist⟩ := j0
  simp only [stageYoutube, mergeReviews] at h ⊢
  by_cases hm : burl ≠ []
  · rw [if_pos hm, h]
  · rw [if_neg hm]

theorem stageTiktok_err (burl : List Nat) (s : PipeState) :
    stageTiktok burl (.error ()) s = s := by
  unfold stageTiktok
  by_cases hm : burl ≠ []
  · rw [if_pos hm]
  · rw [if_neg hm]

theorem stageTiktok_ok_nil (burl : List Nat) (s : PipeState)
    (h : s.job.stat_tiktok = s.job.tiktok.length) :
    stageTiktok burl (.ok []) s = s := by
  obtain ⟨d0, j0⟩ := s
  obtain ⟨st, pr, tr, gl, tp, rd, yt, tk, it, sg, stp, srd, syt, stk, sit, stu, hist⟩ := j0
  simp only [stageTiktok, mergeReviews] at h ⊢
  by_cases hm : burl ≠ []
  · rw [if_pos hm, h]
  · rw [if_neg hm]

theorem stageInternet_err (burl : List Nat) (s : PipeState) :
    stageInternet burl (.error ()) s = s := by
  unfold stageInternet
  by_cases hm : burl ≠ []
  · rw [if_pos hm]
  · rw [if_neg hm]

theorem stageInternet_ok_nil (burl : List Nat) (s : PipeState)
    (h : s.job.stat_internet = s.job.internet.length) :
    stageInternet burl (.ok []) s = s := by
  obtain ⟨d0, j0⟩ := s
  obtain ⟨st, pr, tr, gl, tp, rd, yt, tk, it, sg, stp, srd, syt, stk, sit, stu, hist⟩ := j0
  simp only [stageInternet, mergeReviews] at h ⊢
  by_cases hm : burl ≠ []
  · rw [if_pos hm, h]
  · rw [if_neg hm]

theorem stageTrustpilot_shape (burl trust : List Nat) (res : Except Unit (List Review))
    (s : PipeState) :
    ∃ lst n, stageTrustpilot burl trust res s
      = ⟨(stageTrustpilot burl trust res s).dedup,
          { s.job with trustpilot := lst, stat_trustpilot := n }⟩ := by
  unfold stageTrustpilot
  by_cases hm : trust ≠ []
  · rw [if_pos hm]
    cases res with
    | ok rs => exact ⟨_, _, rfl⟩
    | error e => exact ⟨s.job.trustpilot, s.job.stat_trustpilot, rfl⟩
  · rw [if_neg hm]
    exact ⟨s.job.trustpilot, s.job.stat_trustpilot, rfl⟩

theorem stageReddit_shape (burl : List Nat) (res : Except Unit (List Review))
    (s : PipeState) :
    ∃ lst n, stageReddit burl res s
      = ⟨(stageReddit burl res s).dedup,
          { s.job with reddit := lst, stat_reddit := n }⟩ := by
  unfold stageReddit
  by_cases hm : burl ≠ []
  · rw [if_pos hm]
    cases res with
    | ok rs => exact ⟨_, _, rfl⟩
    | error e => exact ⟨s.job.reddit, s.job.stat_reddit, rfl⟩
  · rw [if_neg hm]
    exact ⟨s.job.reddit, s.job.stat_reddit, rfl⟩

theorem stageYoutube_shape (burl : List Nat) (res : Except Unit (List Review))
    (s : PipeState) :
    ∃ lst n, stageYoutube burl res s
      = ⟨(stageYoutube burl res s).dedup,
          { s.job with youtube := lst, stat_youtube := n }⟩ := by
  unfold stageYoutube
  by_cases hm : burl ≠ []
  · rw [if_pos hm]
    cases res with
    | ok rs => exact ⟨_, _, rfl⟩
    | error e => exact ⟨s.job.youtube, s.job.stat_youtube, rfl⟩
  · rw [if_neg hm]
    exact ⟨s.job.youtube, s.job.stat_youtube, rfl⟩

theorem stageTiktok_shape (burl : List Nat) (res : Except Unit (List Review))
    (s : PipeState) :
    ∃ lst n, stageTiktok burl res s
      = ⟨(stageTiktok burl res s).dedup,
          { s.job with tiktok := lst, stat_tiktok := n }⟩ := by
  unfold stageTiktok
  by_cases hm : burl ≠ []
  · rw [if_pos hm]
    cases res with
    | ok rs => exact ⟨_, _, rfl⟩
    | error e => exact ⟨s.job.tiktok, s.job.stat_tiktok, rfl⟩
  · rw [if_neg hm]
    exact ⟨s.job.tiktok, s.job.stat_tiktok, rfl⟩

theorem stageInternet_shape (burl : List Nat) (res : Except Unit (List Review))
    (s : PipeState) :
    ∃ lst n, stageInternet burl res s
      = ⟨(stageInternet burl res s).dedup,
          { s.job with internet := lst, stat_internet := n }⟩ := by
  unfold stageInternet
  by_cases hm : burl ≠ []
  · rw [if_pos hm]
    cases res with
    | ok rs => exact ⟨_, _, rfl⟩
    | error e => exact ⟨s.job.internet, s.job.stat_internet, rfl⟩
  · rw [if_neg hm]
    exact ⟨s.job.internet, s.job.stat_internet, rfl⟩

/-- Any present locator makes the progress denominator positive. -/
theorem totalSteps_ne_zero (maps trust burl : List Nat)
    (h : maps ≠ [] ∨ trust ≠ [] ∨ burl ≠ []) :
    totalSteps maps trust burl ≠ 0 := by
  unfold totalSteps
  split_ifs with h1 h2 h3 <;> try omega
  all_goals rcases h with h | h | h <;> first
    | exact absurd h1 h
    | exact absurd h2 h
    | exact absurd h3 h

/-! ### Pipeline-level isolation lemmas -/

/-- The pipeline tail always finishes with status `completed`. -/
theorem runStages_status (burl trust : List Nat) (t r y k i : Except Unit (List Review))
    (ts : Nat) (s1 : PipeState) :
    (runStages burl trust t r y k i ts s1).status = .completed := rfl

/-- Stages 2-6 never touch the Google statistic. -/
theorem runStages_stat_google (burl trust : List Nat)
    (t r y k i : Except Unit (List Review)) (ts : Nat) (s1 : PipeState) :
    (runStages burl trust t r y k i ts s1).stat_google = s1.job.stat_google := by
  have hWp : ∀ (s : PipeState) (p : Nat),
      (withProgress s p).job.stat_google = s.job.stat_google := fun _ _ => rfl
  have hFin : ∀ s : PipeState, (runStages.finalize s).stat_google = s.job.stat_google :=
    fun _ => rfl
  have hTru : ∀ s : PipeState,
      (stageTrustpilot burl trust t s).job.stat_google = s.job.stat_google := by
    intro s
    obtain ⟨l, n, hh⟩ := stageTrustpilot_shape burl trust t s
    rw [hh]
  have hRed : ∀ s : PipeState,
      (stageReddit burl r s).job.stat_google = s.job.stat_google := by
    intro s
    obtain ⟨l, n, hh⟩ := stageReddit_shape burl r s
    rw [hh]
  have hYou : ∀ s : PipeState,
      (stageYoutube burl y s).job.stat_google = s.job.stat_google := by
    intro s
    obtain ⟨l, n, hh⟩ := stageYoutube_shape burl y s
    rw [hh]
  have hTik : ∀ s : PipeState,
      (stageTiktok burl k s).job.stat_google = s.job.stat_google := by
    intro s
    obtain ⟨l, n, hh⟩ := stageTiktok_shape burl k s
    rw [hh]
  have hInt : ∀ s : PipeState,
      (stageInternet burl i s).job.stat_google = s.job.stat_google := by
    intro s
    obtain ⟨l, n, hh⟩ := stageInternet_shape burl i s
    rw [hh]
  simp only [runStages, hFin, hInt, hWp, hTik, hYou, hRed, hTru]

/-- A Trustpilot adapter failure is equivalent to an empty result list. -/
theorem runStages_trust_err_ok (burl trust : List Nat)
    (r y k i : Except Unit (List Review)) (ts : Nat) (s1 : PipeState)
    (h : jobInv s1.job) :
    runStages burl trust (.error ()) r y k i ts s1
      = runStages burl trust (.ok []) r y k i ts s1 := by
  have h2 : jobInv (withProgress s1 (1 * 100 / ts)).job := jobInv_withProgress _ _ h
  simp only [runStages]
  rw [stageTrustpilot_err, stageTrustpilot_ok_nil _ _ _ h2.2.1]

/-- With a failed Trustpilot adapter the Trustpilot count is untouched. -/
theorem runStages_trust_err_stat (burl trust : List Nat)
    (r y k i : Except Unit (List Review)) (ts : Nat) (s1 : PipeState) :
    (runStages burl trust (.error ()) r y k i ts s1).stat_trustpilot
      = s1.job.stat_trustpilot := by
  have hWp : ∀ (s : PipeState) (p : Nat),
      (withProgress s p).job.stat_trustpilot = s.job.stat_trustpilot := fun _ _ => rfl
  have hFin : ∀ s : PipeState,
      (runStages.finalize s).stat_trustpilot = s.job.stat_trustpilot := fun _ => rfl
  have hRed : ∀ s : PipeState,
      (stageReddit burl r s).job.stat_trustpilot = s.job.stat_trustpilot := by
    intro s
    obtain ⟨l, n, hh⟩ := stageReddit_shape burl r s
    rw [hh]
  have hYou : ∀ s : PipeState,
      (stageYoutube burl y s).job.stat_trustpilot = s.job.stat_trustpilot := by
    intro s
    obtain ⟨l, n, hh⟩ := stageYoutube_shape burl y s
    rw [hh]
  have hTik : ∀ s : PipeState,
      (stageTiktok burl k s).job.stat_trustpilot = s.job.stat_trustpilot := by
    intro s
    obtain ⟨l, n, hh⟩ := stageTiktok_shape burl k s
    rw [hh]
  have hInt : ∀ s : PipeState,
      (stageInternet burl i s).job.stat_trustpilot = s.job.stat_trustpilot := by
    intro s
    obtain ⟨l, n, hh⟩ := stageInternet_shape burl i s
    rw [hh]
  simp only [runStages]
  rw [stageTrustpilot_err]
  simp only [hFin, hInt, hWp, hTik, hYou, hRed]

/-- A Reddit adapter failure is equivalent to an empty result list. -/
theorem runStages_reddit_err_ok (burl trust : List Nat)
    (t y k i : Except Unit (List Review)) (ts : Nat) (s1 : PipeState)
    (h : jobInv s1.job) :
    runStages burl trust t (.error ()) y k i ts s1
      = runStages burl trust t (.ok []) y k i ts s1 := by
  have h3 : jobInv (withProgress
      (stageTrustpilot burl trust t (withProgress s1 (1 * 100 / ts)))
      (2 * 100 / ts)).job :=
    jobInv_withProgress _ _ (jobInv_stageTrustpilot _ _ _ _ (jobInv_withProgress _ _ h))
  simp only [runStages]
  rw [stageReddit_err, stageReddit_ok_nil _ _ h3.2.2.1]

/-- With a failed Reddit adapter the Reddit count is untouched. -/
theorem runStages_reddit_err_stat (burl trust : List Nat)
    (t y k i : Except Unit (List Review)) (ts : Nat) (s1 : PipeState) :
    (runStages burl trust t (.error ()) y k i ts s1).stat_reddit
      = s1.job.stat_reddit := by
  have hWp : ∀ (s : PipeState) (p : Nat),
      (withProgress s p).job.stat_reddit = s.job.stat_reddit := fun _ _ => rfl
  have hFin : ∀ s : PipeState,
      (runStages.finalize s).stat_reddit = s.job.stat_reddit := fun _ => rfl
  have hTru : ∀ s : PipeState,
      (stageTrustpilot burl trust t s).job.stat_reddit = s.job.stat_reddit := by
    intro s
    obtain ⟨l, n, hh⟩ := stageTrustpilot_shape burl trust t s
    rw [hh]
  have hYou : ∀ s : PipeState,
      (stageYoutube burl y s).job.stat_reddit = s.job.stat_reddit := by
    intro s
    obtain ⟨l, n, hh⟩ := stageYoutube_shape burl y s
    rw [hh]
  have hTik : ∀ s : PipeState,
      (stageTiktok burl k s).job.stat_reddit = s.job.stat_reddit := by
    intro s
    obtain ⟨l, n, hh⟩ := stageTiktok_shape burl k s
    rw [hh]
  have hInt : ∀ s : PipeState,
      (stageInternet burl i s).job.stat_reddit = s.job.stat_reddit := by
    intro s
    obtain ⟨l, n, hh⟩ := stageInternet_shape burl i s
    rw [hh]
  simp only [runStages]
  rw [stageReddit_err]
  simp only [hFin, hInt, hWp, hTik, hYou, hTru]

/-- A YouTube adapter failure is equivalent to an empty result list. -/
theorem runStages_youtube_err_ok (burl trust : List Nat)
    (t r k i : Except Unit (List Review)) (ts : Nat) (s1 : PipeState)
    (h : jobInv s1.job) :
    runStages burl trust t r (.error ()) k i ts s1
      = runStages burl trust t r (.ok []) k i ts s1 := by
  have h4 : jobInv (withProgress
      (stageReddit burl r (withProgress
        (stageTrustpilot burl trust t (withProgress s1 (1 * 100 / ts)))
        (2 * 100 / ts)))
      (3 * 100 / ts)).job :=
    jobInv_withProgress _ _ (jobInv_stageReddit _ _ _
      (jobInv_withProgress _ _ (jobInv_stageTrustpilot _ _ _ _
        (jobInv_withProgress _ _ h))))
  simp only [runStages]
  rw [stageYoutube_err, stageYoutube_ok_nil _ _ h4.2.2.2.1]

/-- With a failed YouTube adapter the YouTube count is untouched. -/
theorem runStages_youtube_err_stat (burl trust : List Nat)
    (t r k i : Except Unit (List Review)) (ts : Nat) (s1 : PipeState) :
    (runStages burl trust t r (.error ()) k i ts s1).stat_youtube
      = s1.job.stat_youtube := by
  have hWp : ∀ (s : PipeState) (p : Nat),
      (withProgress s p).job.stat_youtube = s.job.stat_youtube := fun _ _ => rfl
  have hFin : ∀ s : PipeState,
      (runStages.finalize s).stat_youtube = s.job.stat_youtube := fun _ => rfl
  have hTru : ∀ s : PipeState,
      (stageTrustpilot burl trust t s).job.stat_youtube = s.job.stat_youtube := by
    intro s
    obtain ⟨l, n, hh⟩ := stageTrustpilot_shape burl trust t s
    rw [hh]
  have hRed : ∀ s : PipeState,
      (stageReddit burl r s).job.stat_youtube = s.job.stat_youtube := by
    intro s
    obtain ⟨l, n, hh⟩ := stageReddit_shape burl r s
    rw [hh]
  have hTik : ∀ s : PipeState,
      (stageTiktok burl k s).job.stat_youtube = s.job.stat_youtube := by
    intro s
    obtain ⟨l, n, hh⟩ := stageTiktok_shape burl k s
    rw [hh]
  have hInt : ∀ s : PipeState,
      (stageInternet burl i s).job.stat_youtube = s.job.stat_youtube := by
    intro s
    obtain ⟨l, n, hh⟩ := stageInternet_shape burl i s
    rw [hh]
  simp only [runStages]
  rw [stageYoutube_err]
  simp only [hFin, hInt, hWp, hTik, hRed, hTru]

/-- A TikTok adapter failure is equivalent to an empty result list. -/
theorem runStages_tiktok_err_ok (burl trust : List Nat)
    (t r y i : Except Unit (List Review)) (ts : Nat) (s1 : PipeState)
    (h : jobInv s1.job) :
    runStages burl trust t r y (.error ()) i ts s1
      = runStages burl trust t r y (.ok []) i ts s1 := by
  have h5 : jobInv (withProgress
      (stageYoutube burl y (withProgress
        (stageReddit burl r (withProgress
          (stageTrustpilot burl trust t (withProgress s1 (1 * 100 / ts)))
          (2 * 100 / ts)))
        (3 * 100 / ts)))
      (4 * 100 / ts)).job :=
    jobInv_withProgress _ _ (jobInv_stageYoutube _ _ _
      (jobInv_withProgress _ _ (jobInv_stageReddit _ _ _
        (jobInv_withProgress _ _ (jobInv_stageTrustpilot _ _ _ _
          (jobInv_withProgress _ _ h))))))
  simp only [runStages]
  rw [stageTiktok_err, stageTiktok_ok_nil _ _ h5.2.2.2.2.1]

/-- With a failed TikTok adapter the TikTok count is untouched. -/
theorem runStages_tiktok_err_stat (burl trust : List Nat)
    (t r y i : Except Unit (List Review)) (ts : Nat) (s1 : PipeState) :
    (runStages burl trust t r y (.error ()) i ts s1).stat_tiktok
      = s1.job.stat_tiktok := by
  have hWp : ∀ (s : PipeState) (p : Nat),
      (withProgress s p).job.stat_tiktok = s.job.stat_tiktok := fun _ _ => rfl
  have hFin : ∀ s : PipeState,
      (runStages.finalize s).stat_tiktok = s.job.stat_tiktok := fun _ => rfl
  have hTru : ∀ s : PipeState,
      (stageTrustpilot burl trust t s).job.stat_tiktok = s.job.stat_tiktok := by
    intro s
    obtain ⟨l, n, hh⟩ := stageTrustpilot_shape burl trust t s
    rw [hh]
  have hRed : ∀ s : PipeState,
      (stageReddit burl r s).job.stat_tiktok = s.job.stat_tiktok := by
    intro s
    obtain ⟨l, n, hh⟩ := stageReddit_shape burl r s
    rw [hh]
  have hYou : ∀ s : PipeState,
      (stageYoutube burl y s).job.stat_tiktok = s.job.stat_tiktok := by
    intro s
    obtain ⟨l, n, hh⟩ := stageYoutube_shape burl y s
    rw [hh]
  have hInt : ∀ s : PipeState,
      (stageInternet burl i s).job.stat_tiktok = s.job.stat_tiktok := by
    intro s
    obtain ⟨l, n, hh⟩ := stageInternet_shape burl i s
    rw [hh]
  simp only [runStages]
  rw [stageTiktok_err]
  simp only [hFin, hInt, hWp, hYou, hRed, hTru]

/-- An Internet-search adapter failure is equivalent to an empty result
list. -/
theorem runStages_internet_err_ok (burl trust : List Nat)
    (t r y k : Except Unit (List Review)) (ts : Nat) (s1 : PipeState)
    (h : jobInv s1.job) :
    runStages burl trust t r y k (.error ()) ts s1
      = runStages burl trust t r y k (.ok []) ts s1 := by
  have h6 : jobInv (withProgress
      (stageTiktok burl k (withProgress
        (stageYoutube burl y (withProgress
          (stageReddit burl r (withProgress
            (stageTrustpilot burl trust t (withProgress s1 (1 * 100 / ts)))
            (2 * 100 / ts)))
          (3 * 100 / ts)))
        (4 * 100 / ts)))
      (5 * 100 / ts)).job :=
    jobInv_withProgress _ _ (jobInv_stageTiktok _ _ _
      (jobInv_withProgress _ _ (jobInv_stageYoutube _ _ _
        (jobInv_withProgress _ _ (jobInv_stageReddit _ _ _
          (jobInv_withProgress _ _ (jobInv_stageTrustpilot _ _ _ _
            (jobInv_withProgress _ _ h))))))))
  simp only [runStages]
  rw [stageInternet_err, stageInternet_ok_nil _ _ h6.2.2.2.2.2]

/-- With a failed Internet-search adapter the Internet count is
untouched. -/
theorem runStages_internet_err_stat (burl trust : List Nat)
    (t r y k : Except Unit (List Review)) (ts : Nat) (s1 : PipeState) :
    (runStages burl trust t r y k (.error ()) ts s1).stat_internet
      = s1.job.stat_internet := by
  have hWp : ∀ (s : PipeState) (p : Nat),
      (withProgress s p).job.stat_internet = s.job.stat_internet := fun _ _ => rfl
  have hFin : ∀ s : PipeState,
      (runStages.finalize s).stat_internet = s.job.stat_internet := fun _ => rfl
  have hTru : ∀ s : PipeState,
      (stageTrustpilot burl trust t s).job.stat_internet = s.job.stat_internet := by
    intro s
    obtain ⟨l, n, hh⟩ := stageTrustpilot_shape burl trust t s
    rw [hh]
  have hRed : ∀ s : PipeState,
      (stageReddit burl r s).job.stat_internet = s.job.stat_internet := by
    intro s
    obtain ⟨l, n, hh⟩ := stageReddit_shape burl r s
    rw [hh]
  have hYou : ∀ s : PipeState,
      (stageYoutube burl y s).job.stat_internet = s.job.stat_internet := by
    intro s
    obtain ⟨l, n, hh⟩ := stageYoutube_shape burl y s
    rw [hh]
  have hTik : ∀ s : PipeState,
      (stageTiktok burl k s).job.stat_internet = s.job.stat_internet := by
    intro s
    obtain ⟨l, n, hh⟩ := stageTiktok_shape burl k s
    rw [hh]
  simp only [runStages]
  rw [stageInternet_err]
  simp only [hWp, hFin, hTik, hYou, hRed, hTru]

/-- C6: a stage whose adapter raises is caught inside that stage and
contributes zero findings — the whole run equals the run in which that
adapter returned an empty list — the remaining stages still execute, the job
still reaches status `completed`, and the failing stage's count stays 0 (in
particular a maps/Google stage failure leaves `statistics['google']` at 0
without failing the job).  Each conjunct assumes its stage's locator is
present, i.e. that the stage executes at all. -/
theorem c6_stage_failures_isolated (bn burl maps trust : List Nat)
    (g t r y k i : Except Unit (List Review)) :
    (maps ≠ [] →
      run_scraping bn burl maps trust (.error ()) t r y k i
        = run_scraping bn burl maps trust (.ok []) t r y k i ∧
      (run_scraping bn burl maps trust (.error ()) t r y k i).status = .completed ∧
      (run_scraping bn burl maps trust (.error ()) t r y k i).stat_google = 0) ∧
    (trust ≠ [] →
      run_scraping bn burl maps trust g (.error ()) r y k i
        = run_scraping bn burl maps trust g (.ok []) r y k i ∧
      (run_scraping bn burl maps trust g (.error ()) r y k i).status = .completed ∧
      (run_scraping bn burl maps trust g (.error ()) r y k i).stat_trustpilot = 0) ∧
    (burl ≠ [] →
      run_scraping bn burl maps trust g t (.error ()) y k i
        = run_scraping bn burl maps trust g t (.ok []) y k i ∧
      (run_scraping bn burl maps trust g t (.error ()) y k i).status = .completed ∧
      (run_scraping bn burl maps trust g t (.error ()) y k i).stat_reddit = 0) ∧
    (burl ≠ [] →
      run_scraping bn burl maps trust g t r (.error ()) k i
        = run_scraping bn burl maps trust g t r (.ok []) k i ∧
      (run_scraping bn burl maps trust g t r (.error ()) k i).status = .completed ∧
      (run_scraping bn burl maps trust g t r (.error ()) k i).stat_youtube = 0) ∧
    (burl ≠ [] →
      run_scraping bn burl maps trust g t r y (.error ()) i
        = run_scraping bn burl maps trust g t r y (.ok []) i ∧
      (run_scraping bn burl maps trust g t r y (.error ()) i).status = .completed ∧
      (run_scraping bn burl maps trust g t r y (.error ()) i).stat_tiktok = 0) ∧
    (burl ≠ [] →
      run_scraping bn burl maps trust g t r y k (.error ())
        = run_scraping bn burl maps trust g t r y k (.ok []) ∧
      (run_scraping bn burl maps trust g t r y k (.error ())).status = .completed ∧
      (run_scraping bn burl maps trust g t r y k (.error ())).stat_internet = 0) := by
  have hInv1 : ∀ g0 : Except Unit (List Review),
      jobInv (stageGoogle bn burl maps g0 ⟨{}, initJob⟩).job :=
    fun g0 => jobInv_stageGoogle _ _ _ _ _ (by decide)
  have hG : ∀ (g0 : Except Unit (List Review)) (f : Job → Nat), f initJob = 0 →
      (∀ j0 lst n, f { j0 with google := lst, stat_google := n } = f j0) →
      f (stageGoogle bn burl maps g0 ⟨{}, initJob⟩).job = 0 := by
    intro g0 f hf hupd
    obtain ⟨l, n, hsh⟩ := stageGoogle_shape bn burl maps g0 ⟨{}, initJob⟩
    rw [hsh]
    exact (hupd initJob l n).trans hf
  refine ⟨?_, ?_, ?_, ?_, ?_, ?_⟩
  · intro hm
    have hts := totalSteps_ne_zero maps trust burl (Or.inl hm)
    refine ⟨?_, ?_, ?_⟩
    · unfold run_scraping scrape_all_sources
      simp only [if_neg hts]
      rw [stageGoogle_err, stageGoogle_ok_nil bn burl maps ⟨{}, initJob⟩ rfl]
    · unfold run_scraping scrape_all_sources
      simp only [if_neg hts]
      rfl
    · unfold run_scraping scrape_all_sources
      simp only [if_neg hts]
      rw [stageGoogle_err]
      exact runStages_stat_google burl trust t r y k i _ ⟨{}, initJob⟩
  · intro hm
    have hts := totalSteps_ne_zero maps trust burl (Or.inr (Or.inl hm))
    refine ⟨?_, ?_, ?_⟩
    · unfold run_scraping scrape_all_sources
      simp only [if_neg hts]
      rw [runStages_trust_err_ok burl trust r y k i _ _ (hInv1 g)]
    · unfold run_scraping scrape_all_sources
      simp only [if_neg hts]
      rfl
    · unfold run_scraping scrape_all_sources
      simp only [if_neg hts]
      exact (runStages_trust_err_stat burl trust r y k i _ _).trans
        (hG g (fun j0 => j0.stat_trustpilot) rfl (fun _ _ _ => rfl))
  · intro hm
    have hts := totalSteps_ne_zero maps trust burl (Or.inr (Or.inr hm))
    refine ⟨?_, ?_, ?_⟩
    · unfold run_scraping scrape_all_sources
      simp only [if_neg hts]
      rw [runStages_reddit_err_ok burl trust t y k i _ _ (hInv1 g)]
    · unfold run_scraping scrape_all_sources
      simp only [if_neg hts]
      rfl
    · unfold run_scraping scrape_all_sources
      simp only [if_neg hts]
      exact (runStages_reddit_err_stat burl trust t y k i _ _).trans
        (hG g (fun j0 => j0.stat_reddit) rfl (fun _ _ _ => rfl))
  · intro hm
    have hts := totalSteps_ne_zero maps trust burl (Or.inr (Or.inr hm))
    refine ⟨?_, ?_, ?_⟩
    · unfold run_scraping scrape_all_sources
      simp only [if_neg hts]
      rw [runStages_youtube_err_ok burl trust t r k i _ _ (hInv1 g)]
    · unfold run_scraping scrape_all_sources
      simp only [if_neg hts]
      rfl
    · unfold run_scraping scrape_all_sources
      simp only [if_neg hts]
      exact (runStages_youtube_err_stat burl trust t r k i _ _).trans
        (hG g (fun j0 => j0.stat_youtube) rfl (fun _ _ _ => rfl))
  · intro hm
    have hts := totalSteps_ne_zero maps trust burl (Or.inr (Or.inr hm))
    refine ⟨?_, ?_, ?_⟩
    · unfold run_scraping scrape_all_sources
      simp only [if_neg hts]
      rw [runStages_tiktok_err_ok burl trust t r y i _ _ (hInv1 g)]
    · unfold run_scraping scrape_all_sources
      simp only [if_neg hts]
      rfl
    · unfold run_scraping scrape_all_sources
      simp only [if_neg hts]
      exact (runStages_tiktok_err_stat burl trust t r y i _ _).trans
        (hG g (fun j0 => j0.stat_tiktok) rfl (fun _ _ _ => rfl))
  · intro hm
    have hts := totalSteps_ne_zero maps trust burl (Or.inr (Or.inr hm))
    refine ⟨?_, ?_, ?_⟩
    · unfold run_scraping scrape_all_sources
      simp only [if_neg hts]
      rw [runStages_internet_err_ok burl trust t r y k _ _ (hInv1 g)]
    · unfold run_scraping scrape_all_sources
      simp only [if_neg hts]
      rfl
    · unfold run_scraping scrape_all_sources
      simp only [if_neg hts]
      exact (runStages_internet_err_stat burl trust t r y k _ _).trans
        (hG g (fun j0 => j0.stat_internet) rfl (fun _ _ _ => rfl))

/-- C6 witness: with all locators present, a job completes despite any one
adapter raising. -/
theorem c6_stage_failures_witness :
    ([109] ≠ ([] : List Nat)) ∧ ([116] ≠ ([] : List Nat)) ∧ ([98] ≠ ([] : List Nat)) ∧
    (run_scraping [97] [98] [109] [116] (.error ()) (.ok []) (.ok []) (.ok [])
      (.ok []) (.ok [])).status = .completed ∧
    (run_scraping [97] [98] [109] [116] (.ok []) (.error ()) (.ok []) (.ok [])
      (.ok []) (.ok [])).status = .completed ∧
    (run_scraping [97] [98] [109] [116] (.ok []) (.ok []) (.error ()) (.ok [])
      (.ok []) (.ok [])).status = .completed ∧
    (run_scraping [97] [98] [109] [116] (.ok []) (.ok []) (.ok []) (.error ())
      (.ok []) (.ok [])).status = .completed ∧
    (run_scraping [97] [98] [109] [116] (.ok []) (.ok []) (.ok []) (.ok [])
      (.error ()) (.ok [])).status = .completed ∧
    (run_scraping [97] [98] [109] [116] (.ok []) (.ok []) (.ok []) (.ok [])
      (.ok []) (.error ())).status = .completed :=
  ⟨by decide, by decide, by decide,
    ((c6_stage_failures_isolated [97] [98] [109] [116] (.ok []) (.ok []) (.ok [])
      (.ok []) (.ok []) (.ok [])).1 (by decide)).2.1,
    ((c6_stage_failures_isolated [97] [98] [109] [116] (.ok []) (.ok []) (.ok [])
      (.ok []) (.ok []) (.ok [])).2.1 (by decide)).2.1,
    ((c6_stage_failures_isolated [97] [98] [109] [116] (.ok []) (.ok []) (.ok [])
      (.ok []) (.ok []) (.ok [])).2.2.1 (by decide)).2.1,
    ((c6_stage_failures_isolated [97] [98] [109] [116] (.ok []) (.ok []) (.ok [])
      (.ok []) (.ok []) (.ok [])).2.2.2.1 (by decide)).2.1,
    ((c6_stage_failures_isolated [97] [98] [109] [116] (.ok []) (.ok []) (.ok [])
      (.ok []) (.ok []) (.ok [])).2.2.2.2.1 (by decide)).2.1,
    ((c6_stage_failures_isolated [97] [98] [109] [116] (.ok []) (.ok []) (.ok [])
      (.ok []) (.ok []) (.ok [])).2.2.2.2.2 (by decide)).2.1⟩

end GmScraper
